import Mathlib

/-!
Verification of the Sales KPI Aggregation & Ranking Engine of the
redlabelmarketing/sales-dashboard repository, against its natural-language
specification.  The TypeScript source is shallowly embedded: JS numbers are
modelled as `ℚ` (the dashboard's arithmetic is rational; `NaN` is modelled as
`Option.none` where a computation can produce it), JS arrays as `List`, JS
objects used as string-keyed maps as insertion-ordered association lists, and
`Array.prototype.sort` (stable per ES2019) as `List.insertionSort` on the
"comparator result ≤ 0" relation, which is the unique stable sort.
-/

namespace SalesDash

/-! ## JS value model (for the Record Normalizer, src/app/page.tsx) -/

/-- A loosely-typed JSON/JS value as received from the upstream payload. -/
inductive JVal where
  | undefined
  | null
  | bool (b : Bool)
  | num (q : ℚ)
  | str (s : String)
  | arr (elems : List JVal)

/-- JS nullish coalescing `v ?? d`: replaces `undefined` and `null` only. -/
def nullishD (v d : JVal) : JVal :=
  match v with
  | .undefined => d
  | .null => d
  | x => x

/-- JS `Array.isArray(v) ? v : []`. -/
def asArray (v : JVal) : List JVal :=
  match v with
  | .arr xs => xs
  | _ => []

/-- Numeric value of a list of decimal digit characters. -/
def natOfDigits (cs : List Char) : ℕ :=
  cs.foldl (fun n c => n * 10 + (c.toNat - 48)) 0

/-- Model of JS `ToNumber` on a string: trimmed empty string is `0`, an
optionally signed decimal numeral parses to its value, anything else is `NaN`
(`none`).  Hex/exponent/`Infinity` forms are not modelled; no payload field the
claims touch carries them. -/
def strToNum (s : String) : Option ℚ :=
  let t := s.trim
  if t = "" then some 0 else
  let sb : ℚ × List Char :=
    match t.data with
    | '-' :: rest => (-1, rest)
    | '+' :: rest => (1, rest)
    | cs => (1, cs)
  let ip := sb.2.takeWhile (fun c => c.isDigit)
  let rest := sb.2.dropWhile (fun c => c.isDigit)
  match rest with
  | [] => if ip.isEmpty then none else some (sb.1 * natOfDigits ip)
  | '.' :: fr =>
      if fr.all (fun c => c.isDigit) ∧ (ip ≠ [] ∨ fr ≠ []) then
        some (sb.1 * ((natOfDigits ip : ℚ) + (natOfDigits fr : ℚ) / 10 ^ fr.length))
      else none
  | _ => none

/-- Model of JS `Number(v)`; `none` stands for `NaN`.  An array coerces through
the comma-join of its rendered elements: `[]` is `0`, a single element unwraps
(`undefined`/`null` render as the empty string, hence `0`), and two or more
elements produce a string containing a comma, hence `NaN`. -/
def jsToNumber : JVal → Option ℚ
  | .undefined => none
  | .null => some 0
  | .bool b => some (if b then 1 else 0)
  | .num q => some q
  | .str s => strToNum s
  | .arr [] => some 0
  | .arr [.undefined] => some 0
  | .arr [.null] => some 0
  | .arr [.num q] => some q
  | .arr [.str s] => strToNum s
  | .arr [.arr xs] => jsToNumber (.arr xs)
  | .arr _ => none

/-- The upstream payload shape read by the normalizer (fields may be absent —
`undefined` — or hold any value). -/
structure RawPayload where
  ok : JVal := .undefined
  salesPerDay : JVal := .undefined
  agentDaily : JVal := .undefined
  agentLeaderboard : JVal := .undefined
  perAgentKPI : JVal := .undefined
  totalSales : JVal := .undefined
  totalAgents : JVal := .undefined
  avgPerAgent : JVal := .undefined
  avgDailyAgents : JVal := .undefined
  totalKPI : JVal := .undefined
  date : JVal := .undefined

/-- The total, fully-defaulted payload produced by the normalizer. -/
structure NormPayload where
  ok : JVal
  salesPerDay : List JVal
  agentDaily : List JVal
  agentLeaderboard : List JVal
  perAgentKPI : List JVal
  totalSales : Option ℚ
  totalAgents : Option ℚ
  avgPerAgent : Option ℚ
  avgDailyAgents : Option ℚ
  totalKPI : Option ℚ
  date : JVal

/-- Record Normalizer, from `normalizePayload` in src/app/page.tsx lines 42–58.
Each array-typed field is `Array.isArray(x) ? x : []`; each numeric field is
`Number(x ?? 0)`.  (`updatedAt`, a wall-clock read, is rendering plumbing and
is left out of the model.) -/
def normalizePayload (json : RawPayload) : NormPayload :=
  { ok := nullishD json.ok (.bool true)
    salesPerDay := asArray json.salesPerDay
    agentDaily := asArray json.agentDaily
    agentLeaderboard := asArray json.agentLeaderboard
    perAgentKPI := asArray json.perAgentKPI
    totalSales := jsToNumber (nullishD json.totalSales (.num 0))
    totalAgents := jsToNumber (nullishD json.totalAgents (.num 0))
    avgPerAgent := jsToNumber (nullishD json.avgPerAgent (.num 0))
    avgDailyAgents := jsToNumber (nullishD json.avgDailyAgents (.num 0))
    totalKPI := jsToNumber (nullishD json.totalKPI (.num 0))
    date := nullishD json.date .undefined }

lemma asArray_of_not_arr (v : JVal)
    (h : v = .undefined ∨ v = .null ∨ ∀ xs, v ≠ .arr xs) : asArray v = [] := by
  cases v <;> simp [asArray]
  rcases h with h | h | h
  · cases h
  · cases h
  · exact absurd rfl (h _)

lemma numField_of_nullish (v : JVal) (h : v = .undefined ∨ v = .null) :
    jsToNumber (nullishD v (.num 0)) = some 0 := by
  rcases h with h | h <;> subst h <;> rfl

/-- C5: the Record Normalizer is total and defaulting — every array-typed field
(`salesPerDay`, `agentDaily`, `agentLeaderboard`, `perAgentKPI`) comes out an
array, the empty array whenever the input value is absent, `null`, or not an
array; and every numeric field (`totalSales`, `totalAgents`, `avgPerAgent`,
`avgDailyAgents`, `totalKPI`) comes out `0` whenever the input value is absent
or `null`.  No error is raised for malformed shapes (the model is a total
function). -/
theorem normalizePayload_defaults (p : RawPayload) :
    ((p.salesPerDay = .undefined ∨ p.salesPerDay = .null ∨ ∀ xs, p.salesPerDay ≠ .arr xs) →
        (normalizePayload p).salesPerDay = []) ∧
    (∀ xs, p.salesPerDay = .arr xs → (normalizePayload p).salesPerDay = xs) ∧
    ((p.agentDaily = .undefined ∨ p.agentDaily = .null ∨ ∀ xs, p.agentDaily ≠ .arr xs) →
        (normalizePayload p).agentDaily = []) ∧
    (∀ xs, p.agentDaily = .arr xs → (normalizePayload p).agentDaily = xs) ∧
    ((p.agentLeaderboard = .undefined ∨ p.agentLeaderboard = .null ∨
        ∀ xs, p.agentLeaderboard ≠ .arr xs) →
        (normalizePayload p).agentLeaderboard = []) ∧
    (∀ xs, p.agentLeaderboard = .arr xs → (normalizePayload p).agentLeaderboard = xs) ∧
    ((p.perAgentKPI = .undefined ∨ p.perAgentKPI = .null ∨ ∀ xs, p.perAgentKPI ≠ .arr xs) →
        (normalizePayload p).perAgentKPI = []) ∧
    (∀ xs, p.perAgentKPI = .arr xs → (normalizePayload p).perAgentKPI = xs) ∧
    ((p.totalSales = .undefined ∨ p.totalSales = .null) →
        (normalizePayload p).totalSales = some 0) ∧
    ((p.totalAgents = .undefined ∨ p.totalAgents = .null) →
        (normalizePayload p).totalAgents = some 0) ∧
    ((p.avgPerAgent = .undefined ∨ p.avgPerAgent = .null) →
        (normalizePayload p).avgPerAgent = some 0) ∧
    ((p.avgDailyAgents = .undefined ∨ p.avgDailyAgents = .null) →
        (normalizePayload p).avgDailyAgents = some 0) ∧
    ((p.totalKPI = .undefined ∨ p.totalKPI = .null) →
        (normalizePayload p).totalKPI = some 0) := by
  refine ⟨fun h => asArray_of_not_arr _ h, fun xs h => ?_,
    fun h => asArray_of_not_arr _ h, fun xs h => ?_,
    fun h => asArray_of_not_arr _ h, fun xs h => ?_,
    fun h => asArray_of_not_arr _ h, fun xs h => ?_,
    fun h => numField_of_nullish _ h, fun h => numField_of_nullish _ h,
    fun h => numField_of_nullish _ h, fun h => numField_of_nullish _ h,
    fun h => numField_of_nullish _ h⟩ <;>
    simp [normalizePayload, h, asArray]

/-- Witness for C5: a payload with every field absent normalizes to empty
arrays and zeros, and a well-formed array field is passed through. -/
theorem normalizePayload_defaults_witness :
    (normalizePayload {}).salesPerDay = [] ∧
    (normalizePayload {}).agentDaily = [] ∧
    (normalizePayload {}).totalSales = some 0 ∧
    (normalizePayload {}).totalKPI = some 0 ∧
    (normalizePayload { salesPerDay := .arr [.num 3] }).salesPerDay = [.num 3] ∧
    (normalizePayload { totalSales := .null }).totalSales = some 0 :=
  ⟨(normalizePayload_defaults {}).1 (Or.inl rfl),
   (normalizePayload_defaults {}).2.2.1 (Or.inl rfl),
   (normalizePayload_defaults {}).2.2.2.2.2.2.2.2.1 (Or.inl rfl),
   (normalizePayload_defaults {}).2.2.2.2.2.2.2.2.2.2.2.2 (Or.inl rfl),
   (normalizePayload_defaults { salesPerDay := .arr [.num 3] }).2.1 _ rfl,
   (normalizePayload_defaults { totalSales := .null }).2.2.2.2.2.2.2.2.1 (Or.inr rfl)⟩

/-! ## Stable sort model of `Array.prototype.sort` -/

/-- Model of `arr.sort(c)` for a JS comparator `c` (ES2019 `sort` is stable):
the unique stable order consistent with the comparator, realised by
`List.insertionSort` on the relation "comparator result ≤ 0". -/
def jsSort {α : Type} (c : α → α → ℚ) (l : List α) : List α :=
  List.insertionSort (fun a b => c a b ≤ 0) l

section Stability

variable {α : Type} (r : α → α → Prop) [DecidableRel r] (p : α → Bool)

lemma filter_orderedInsert_of_tied (x : α) (hx : p x = true)
    (htie : ∀ y, p y = true → r x y) :
    ∀ l : List α, (List.orderedInsert r x l).filter p = x :: l.filter p
  | [] => by simp [hx]
  | y :: ys => by
      by_cases hr : r x y
      · simp [List.orderedInsert, hr, hx]
      · have hpy : p y = false := by
          cases hy : p y
          · rfl
          · exact absurd (htie y hy) hr
        simp [List.orderedInsert, hr, hpy,
          filter_orderedInsert_of_tied x hx htie ys]

lemma filter_orderedInsert_of_out (x : α) (hx : p x = false) :
    ∀ l : List α, (List.orderedInsert r x l).filter p = l.filter p
  | [] => by simp [hx]
  | y :: ys => by
      by_cases hr : r x y
      · simp [List.orderedInsert, hr, hx]
      · simp [List.orderedInsert, hr, List.filter_cons,
          filter_orderedInsert_of_out x hx ys]

/-- Stability of the sort model: the sublist of mutually tied elements
(selected by `p`) comes out exactly as it went in. -/
lemma filter_insertionSort_of_tied (htie : ∀ x y, p x = true → p y = true → r x y) :
    ∀ l : List α, (List.insertionSort r l).filter p = l.filter p
  | [] => rfl
  | x :: xs => by
      cases hx : p x
      · simp [List.insertionSort, filter_orderedInsert_of_out r p x hx,
          filter_insertionSort_of_tied htie xs, List.filter_cons, hx]
      · simp [List.insertionSort,
          filter_orderedInsert_of_tied r p x hx (fun y hy => htie x y hx hy),
          filter_insertionSort_of_tied htie xs, List.filter_cons, hx]

end Stability

/-! ## Leaderboard Ranker (`sortedDayRows`, src/unnamed/part_001 lines 191–206) -/

/-- A per-agent day row, from type `DayRow` in src/unnamed/part_001:
`{ agent, sales, status?, target?, percent? }`. -/
structure DayRow where
  agent : String
  sales : ℚ
  status : Option String := none
  target : Option ℚ := none
  percent : Option ℚ := none
deriving DecidableEq

/-- The selectable sort key, `"agent" | "sales" | "percent"`. -/
inductive SKey where
  | agent
  | sales
  | percent
deriving DecidableEq

/-- The sort direction, `"asc" | "desc"`. -/
inductive SDir where
  | asc
  | desc
deriving DecidableEq

/-- The sort value `av` the comparator extracts from a row:
`a.agent.toLowerCase()` for the `agent` key, `a.sales ?? 0` for `sales`
(`sales` is a required number, so `?? 0` is the identity), `a.percent ?? 0`
for `percent`. -/
def sortVal : SKey → DayRow → String ⊕ ℚ
  | .agent, r => .inl r.agent.toLower
  | .sales, r => .inr r.sales
  | .percent, r => .inr (r.percent.getD 0)

/-- JS `<` between two sort values of like type (unlike types never meet,
since both sides come from the same key). -/
def svLt : String ⊕ ℚ → String ⊕ ℚ → Prop
  | .inl a, .inl b => a < b
  | .inr a, .inr b => a < b
  | _, _ => False

instance : (x y : String ⊕ ℚ) → Decidable (svLt x y)
  | .inl a, .inl b => inferInstanceAs (Decidable (a < b))
  | .inr a, .inr b => inferInstanceAs (Decidable (a < b))
  | .inl _, .inr _ => isFalse (fun h => h)
  | .inr _, .inl _ => isFalse (fun h => h)

/-- The comparator of `sortedDayRows`:
`av < bv ? (asc ? -1 : 1) : av > bv ? (asc ? 1 : -1) : 0`. -/
def rowCompare (k : SKey) (d : SDir) (a b : DayRow) : ℚ :=
  let av := sortVal k a
  let bv := sortVal k b
  if svLt av bv then (if d = .asc then -1 else 1)
  else if svLt bv av then (if d = .asc then 1 else -1)
  else 0

/-- Leaderboard Ranker:
`const rows = [...dayData.perAgentKPI]; rows.sort(cmp); return rows;`. -/
def sortedDayRows (k : SKey) (d : SDir) (rows : List DayRow) : List DayRow :=
  jsSort (rowCompare k d) rows

lemma svLt_asymm : ∀ x y : String ⊕ ℚ, svLt x y → ¬ svLt y x
  | .inl _, .inl _, h => lt_asymm h
  | .inr _, .inr _, h => lt_asymm h
  | .inl _, .inr _, h => h.elim
  | .inr _, .inl _, h => h.elim

lemma rowCompare_unfold (k : SKey) (d : SDir) (a b : DayRow) :
    rowCompare k d a b =
      if svLt (sortVal k a) (sortVal k b) then (if d = .asc then -1 else 1)
      else if svLt (sortVal k b) (sortVal k a) then (if d = .asc then 1 else -1)
      else 0 := rfl

lemma rowCompare_asc_def (k : SKey) (a b : DayRow) :
    rowCompare k .asc a b =
      if svLt (sortVal k a) (sortVal k b) then (-1 : ℚ)
      else if svLt (sortVal k b) (sortVal k a) then 1 else 0 := by
  rw [rowCompare_unfold]
  simp

lemma rowCompare_desc_def (k : SKey) (a b : DayRow) :
    rowCompare k .desc a b =
      if svLt (sortVal k a) (sortVal k b) then (1 : ℚ)
      else if svLt (sortVal k b) (sortVal k a) then -1 else 0 := by
  rw [rowCompare_unfold]
  simp

lemma cmpDescSv_flip (x y : String ⊕ ℚ) :
    (if svLt x y then (1 : ℚ) else if svLt y x then -1 else 0) =
      (if svLt y x then (-1 : ℚ) else if svLt x y then 1 else 0) := by
  by_cases h1 : svLt x y
  · rw [if_pos h1, if_neg (svLt_asymm x y h1), if_pos h1]
  · rw [if_neg h1]
    by_cases h2 : svLt y x
    · rw [if_pos h2, if_pos h2]
    · rw [if_neg h2, if_neg h2, if_neg h1]

lemma cmpSv_le_iff (x y : String ⊕ ℚ) :
    (if svLt x y then (-1 : ℚ) else if svLt y x then 1 else 0) ≤ 0 ↔ ¬ svLt y x := by
  by_cases h1 : svLt x y
  · rw [if_pos h1]
    exact iff_of_true (by norm_num) (svLt_asymm x y h1)
  · rw [if_neg h1]
    by_cases h2 : svLt y x
    · rw [if_pos h2]
      exact iff_of_false (by norm_num) (not_not_intro h2)
    · rw [if_neg h2]
      exact iff_of_true le_rfl h2

lemma cmpSv_lt_iff (x y : String ⊕ ℚ) :
    (if svLt x y then (-1 : ℚ) else if svLt y x then 1 else 0) < 0 ↔ svLt x y := by
  by_cases h1 : svLt x y
  · rw [if_pos h1]
    exact iff_of_true (by norm_num) h1
  · rw [if_neg h1]
    by_cases h2 : svLt y x
    · rw [if_pos h2]
      exact iff_of_false (by norm_num) h1
    · rw [if_neg h2]
      exact iff_of_false (lt_irrefl 0) h1

lemma cmpSv_eq_zero_iff (x y : String ⊕ ℚ) :
    (if svLt x y then (-1 : ℚ) else if svLt y x then 1 else 0) = 0 ↔
      ¬ svLt x y ∧ ¬ svLt y x := by
  by_cases h1 : svLt x y
  · rw [if_pos h1]
    exact iff_of_false (by norm_num) (fun hc => hc.1 h1)
  · rw [if_neg h1]
    by_cases h2 : svLt y x
    · rw [if_pos h2]
      exact iff_of_false (by norm_num) (fun hc => hc.2 h2)
    · rw [if_neg h2]
      exact iff_of_true rfl ⟨h1, h2⟩

lemma rowCompare_asc_le (k : SKey) (a b : DayRow) :
    rowCompare k .asc a b ≤ 0 ↔ ¬ svLt (sortVal k b) (sortVal k a) := by
  rw [rowCompare_asc_def]
  exact cmpSv_le_iff _ _

lemma rowCompare_desc_le (k : SKey) (a b : DayRow) :
    rowCompare k .desc a b ≤ 0 ↔ ¬ svLt (sortVal k a) (sortVal k b) := by
  rw [rowCompare_desc_def, cmpDescSv_flip]
  exact cmpSv_le_iff _ _

lemma sortVal_not_lt_trans (k : SKey) (a b c : DayRow)
    (h1 : ¬ svLt (sortVal k b) (sortVal k a))
    (h2 : ¬ svLt (sortVal k c) (sortVal k b)) :
    ¬ svLt (sortVal k c) (sortVal k a) := by
  cases k <;> simp only [sortVal, svLt, not_lt] at h1 h2 ⊢ <;> exact le_trans h1 h2

lemma rowCompare_le_total (k : SKey) (d : SDir) (a b : DayRow) :
    rowCompare k d a b ≤ 0 ∨ rowCompare k d b a ≤ 0 := by
  cases d
  · rw [rowCompare_asc_le, rowCompare_asc_le]
    by_cases h : svLt (sortVal k b) (sortVal k a)
    · exact Or.inr (svLt_asymm _ _ h)
    · exact Or.inl h
  · rw [rowCompare_desc_le, rowCompare_desc_le]
    by_cases h : svLt (sortVal k a) (sortVal k b)
    · exact Or.inr (svLt_asymm _ _ h)
    · exact Or.inl h

lemma rowCompare_le_trans (k : SKey) (d : SDir) (a b c : DayRow)
    (hab : rowCompare k d a b ≤ 0) (hbc : rowCompare k d b c ≤ 0) :
    rowCompare k d a c ≤ 0 := by
  cases d
  · rw [rowCompare_asc_le] at hab hbc ⊢
    exact sortVal_not_lt_trans k a b c hab hbc
  · rw [rowCompare_desc_le] at hab hbc ⊢
    exact sortVal_not_lt_trans k c b a hbc hab

lemma rowCompare_eq_zero_of_tie (k : SKey) (d : SDir) (a b : DayRow)
    (h : sortVal k a = sortVal k b) : rowCompare k d a b = 0 := by
  have hlt : ¬ svLt (sortVal k a) (sortVal k b) := by
    rw [h]
    cases sortVal k b <;> simp [svLt]
  have hgt : ¬ svLt (sortVal k b) (sortVal k a) := by
    rw [h]
    cases sortVal k b <;> simp [svLt]
  rw [rowCompare_unfold, if_neg hlt, if_neg hgt]

/-- C6: the Leaderboard Ranker is a stable sort and idempotent — for every row
sequence, sort key and direction, the rows whose sort value equals any given
`v` keep their relative input order, and re-sorting an already produced output
by the same key and direction yields the identical sequence. -/
theorem sortedDayRows_stable_idempotent (k : SKey) (d : SDir)
    (rows : List DayRow) (v : String ⊕ ℚ) :
    (sortedDayRows k d rows).filter (fun r => decide (sortVal k r = v)) =
        rows.filter (fun r => decide (sortVal k r = v)) ∧
    sortedDayRows k d (sortedDayRows k d rows) = sortedDayRows k d rows := by
  constructor
  · apply filter_insertionSort_of_tied
    intro x y hx hy
    have hx2 : sortVal k x = v := of_decide_eq_true hx
    have hy2 : sortVal k y = v := of_decide_eq_true hy
    have : rowCompare k d x y = 0 :=
      rowCompare_eq_zero_of_tie k d x y (hx2.trans hy2.symm)
    simp [this]
  · haveI : IsTotal DayRow (fun a b => rowCompare k d a b ≤ 0) :=
      ⟨fun a b => rowCompare_le_total k d a b⟩
    haveI : IsTrans DayRow (fun a b => rowCompare k d a b ≤ 0) :=
      ⟨fun a b c => rowCompare_le_trans k d a b c⟩
    exact (List.sorted_insertionSort _ _).insertionSort_eq

/-- C7: comparator semantics of the Leaderboard Ranker — under the `agent` key
the order is case-normalized (`toLowerCase`) lexical order, under `sales` and
`percent` it is numeric, and a missing `percent` is compared as `0` (rows whose
`percent` is replaced by `percent ?? 0` compare identically). -/
theorem rowCompare_key_semantics (d : SDir) (a b : DayRow) :
    (rowCompare .agent .asc a b < 0 ↔ a.agent.toLower < b.agent.toLower) ∧
    (rowCompare .agent .asc a b = 0 ↔ a.agent.toLower = b.agent.toLower) ∧
    (rowCompare .agent .desc a b < 0 ↔ b.agent.toLower < a.agent.toLower) ∧
    (rowCompare .sales .asc a b < 0 ↔ a.sales < b.sales) ∧
    (rowCompare .sales .desc a b < 0 ↔ b.sales < a.sales) ∧
    (rowCompare .percent .asc a b < 0 ↔ a.percent.getD 0 < b.percent.getD 0) ∧
    (rowCompare .percent .desc a b < 0 ↔ b.percent.getD 0 < a.percent.getD 0) ∧
    rowCompare .percent d a b =
      rowCompare .percent d { a with percent := some (a.percent.getD 0) }
        { b with percent := some (b.percent.getD 0) } := by
  refine ⟨?_, ?_, ?_, ?_, ?_, ?_, ?_, ?_⟩
  · rw [rowCompare_asc_def]
    exact cmpSv_lt_iff (sortVal .agent a) (sortVal .agent b)
  · rw [rowCompare_asc_def, cmpSv_eq_zero_iff]
    constructor
    · intro hc
      have h1 : ¬ a.agent.toLower < b.agent.toLower := hc.1
      have h2 : ¬ b.agent.toLower < a.agent.toLower := hc.2
      exact le_antisymm (not_lt.1 h2) (not_lt.1 h1)
    · intro hc
      exact ⟨fun hlt => absurd hc (ne_of_lt hlt), fun hlt => absurd hc (ne_of_gt hlt)⟩
  · rw [rowCompare_desc_def, cmpDescSv_flip]
    exact cmpSv_lt_iff (sortVal .agent b) (sortVal .agent a)
  · rw [rowCompare_asc_def]
    exact cmpSv_lt_iff (sortVal .sales a) (sortVal .sales b)
  · rw [rowCompare_desc_def, cmpDescSv_flip]
    exact cmpSv_lt_iff (sortVal .sales b) (sortVal .sales a)
  · rw [rowCompare_asc_def]
    exact cmpSv_lt_iff (sortVal .percent a) (sortVal .percent b)
  · rw [rowCompare_desc_def, cmpDescSv_flip]
    exact cmpSv_lt_iff (sortVal .percent b) (sortVal .percent a)
  · rw [rowCompare_unfold, rowCompare_unfold]
    simp [sortVal]

/-! ## Frame property of the Ranker (C8): the input array is untouched -/

/-- A heap of JS arrays of day rows; a reference is an index into it. -/
structure RowHeap where
  arrays : List (List DayRow)

/-- Dereference an array; a dangling reference reads as empty. -/
def readArr (h : RowHeap) (ref : ℕ) : List DayRow :=
  h.arrays.getD ref []

/-- Heap-level model of the Ranker call site:
`const rows = [...dayData.perAgentKPI]; rows.sort(cmp); return rows;` —
the spread copies the source into a fresh array, `sort` mutates only that
fresh array, and a reference to it is returned. -/
def sortedDayRowsAlloc (h : RowHeap) (src : ℕ) (k : SKey) (d : SDir) :
    RowHeap × ℕ :=
  (⟨h.arrays ++ [sortedDayRows k d (readArr h src)]⟩, h.arrays.length)

/-- C8: the Ranker returns a freshly allocated sequence and leaves every
pre-existing array — in particular the input sequence — unchanged: a caller
holding the original reference reads the same elements in the same order
after the call as before. -/
theorem sortedDayRowsAlloc_frame (h : RowHeap) (src : ℕ) (k : SKey) (d : SDir)
    (i : ℕ) (hi : i < h.arrays.length) :
    readArr (sortedDayRowsAlloc h src k d).1 i = readArr h i ∧
    readArr (sortedDayRowsAlloc h src k d).1 src = readArr h src ∧
    (sortedDayRowsAlloc h src k d).2 = h.arrays.length ∧
    readArr (sortedDayRowsAlloc h src k d).1 (sortedDayRowsAlloc h src k d).2 =
      sortedDayRows k d (readArr h src) := by
  refine ⟨?_, ?_, rfl, ?_⟩
  · simp [sortedDayRowsAlloc, readArr, List.getD_eq_getElem?_getD,
      List.getElem?_append_left hi]
  · rcases lt_trichotomy src h.arrays.length with hs | hs | hs
    · simp [sortedDayRowsAlloc, readArr, List.getD_eq_getElem?_getD,
        List.getElem?_append_left hs]
    · have h2 : h.arrays[src]? = none := by
        rw [List.getElem?_eq_none]
        omega
      have hread : readArr h src = [] := by
        simp [readArr, List.getD_eq_getElem?_getD, h2]
      have hsorted : sortedDayRows k d ([] : List DayRow) = [] := rfl
      subst hs
      simp [sortedDayRowsAlloc, readArr, List.getD_eq_getElem?_getD, hread, hsorted, h2]
    · have h2 : h.arrays[src]? = none := by
        rw [List.getElem?_eq_none]
        omega
      have hread : readArr h src = [] := by
        simp [readArr, List.getD_eq_getElem?_getD, h2]
      have h1 : (h.arrays ++ [sortedDayRows k d ([] : List DayRow)])[src]? = none := by
        rw [List.getElem?_eq_none]
        simp only [List.length_append, List.length_singleton]
        omega
      simp [sortedDayRowsAlloc, readArr, List.getD_eq_getElem?_getD, hread, h1, h2]
  · simp [sortedDayRowsAlloc, readArr, List.getD_eq_getElem?_getD]

/-- The two-row heap used to witness C8. -/
def frameHeap : RowHeap :=
  ⟨[[{ agent := "B", sales := 2 }, { agent := "A", sales := 1 }], []]⟩

/-- Witness for C8, at a concrete two-array heap. -/
theorem sortedDayRowsAlloc_frame_witness :
    readArr (sortedDayRowsAlloc frameHeap 0 .sales .desc).1 0 =
        [{ agent := "B", sales := 2 }, { agent := "A", sales := 1 }] ∧
    readArr (sortedDayRowsAlloc frameHeap 0 .sales .desc).1 2 =
        sortedDayRows .sales .desc
          [{ agent := "B", sales := 2 }, { agent := "A", sales := 1 }] := by
  have h := sortedDayRowsAlloc_frame frameHeap 0 .sales .desc 0 (by decide)
  exact ⟨h.2.1, h.2.2.2⟩

/-! ## Top-N Grouper (src/app/page.tsx `buildStacked` lines 60–86;
src/unnamed/part_000 `stacked` lines 186–209) -/

/-- One agent's record, from type `AgentKPI` in src/unnamed/part_000:
`{ agent, sales, status?, goal?, percent? }`. -/
structure AgentKPI where
  agent : String
  sales : ℚ
  status : Option String := none
  goal : Option ℚ := none
  percent : Option ℚ := none
deriving DecidableEq

/-- One day of per-agent records, from type `AgentDaily`: `{ date, byAgent }`. -/
structure DayAgg where
  date : String
  byAgent : List AgentKPI
deriving DecidableEq

/-- A JS object used as a string-keyed map, in insertion order:
`m[k] = (m[k] || 0) + v` updates an existing key in place and appends a new
key at the end. -/
def bump (m : List (String × ℚ)) (k : String) (v : ℚ) : List (String × ℚ) :=
  match m with
  | [] => [(k, v)]
  | (k0, v0) :: rest =>
      if k0 = k then (k0, v0 + v) :: rest else (k0, v0) :: bump rest k v

/-- Property read `m[k]` on an object-as-map (first binding wins; `bump` keeps
keys unique, so there is at most one). -/
def alookup (t : String) : List (String × ℚ) → Option ℚ
  | [] => none
  | (k, v) :: rest => if k = t then some v else alookup t rest

/-- `Object.keys` / `Object.entries` order: insertion order of the keys. -/
def akeys (m : List (String × ℚ)) : List String :=
  m.map Prod.fst

/-- The accumulation loop shared by both grouper passes, guarded by a key
filter `g`: `for (a of recs) if (g a.agent) m[a.agent] = (m[a.agent] || 0) + a.sales`.
The totals pass uses `g = fun _ => true` (no gate); the row pass of
`buildStacked` gates on membership in the tracked set.  (`a.sales || 0` is the
identity on `ℚ`, where `0` is the only falsy value.) -/
def bumpFold (g : String → Bool) (m : List (String × ℚ)) (recs : List AgentKPI) :
    List (String × ℚ) :=
  recs.foldl (fun acc a => if g a.agent then bump acc a.agent a.sales else acc) m

/-- The per-agent totals map over the whole series, built in first-seen
insertion order (`totals` in `buildStacked`, `counts` in part_000). -/
def totalsAcc (daily : List DayAgg) : List (String × ℚ) :=
  daily.foldl (fun m d => bumpFold (fun _ => true) m d.byAgent) []

/-- The tracked set:
`Object.entries(totals).sort((a, b) => b[1] - a[1]).slice(0, n).map(([name]) => name)`. -/
def topAgents (daily : List DayAgg) (n : ℕ) : List String :=
  ((jsSort (fun a b => b.2 - a.2) (totalsAcc daily)).take n).map Prod.fst

/-- A stacked-chart row — the date plus one numeric field per emitted agent
key (a JS object, modelled as the date and an insertion-ordered field list). -/
structure SRow where
  date : String
  fields : List (String × ℚ)
deriving DecidableEq

/-- `const found = d.byAgent.find(x => x.agent === name); found ? found.sales : 0`. -/
def foundOr0 (d : DayAgg) (name : String) : ℚ :=
  match d.byAgent.find? (fun x => x.agent == name) with
  | some f => f.sales
  | none => 0

/-- Top-N Grouper of src/unnamed/part_000 (`stacked`): rank the top 6 agents,
then emit one row per day carrying every tracked key, `0` when the agent has
no record that day. -/
def stacked000 (daily : List DayAgg) : List SRow × List String :=
  let top := topAgents daily 6
  (daily.map (fun d => ⟨d.date, top.map (fun name => (name, foundOr0 d name))⟩), top)

/-- Top-N Grouper of src/app/page.tsx (`buildStacked`): same ranking, but a
day's row gets a field only for tracked agents having a record that day:
`if (ranked.includes(a.agent)) row[a.agent] = (row[a.agent] || 0) + (a.sales || 0)`. -/
def buildStacked (agentDaily : List DayAgg) (topN : ℕ) : List SRow × List String :=
  if agentDaily.length = 0 then ([], [])
  else
    let ranked := topAgents agentDaily topN
    (agentDaily.map (fun d =>
        ⟨d.date, bumpFold (fun ag => decide (ag ∈ ranked)) [] d.byAgent⟩),
      ranked)

/-- All records of a series, in series order (spec side). -/
def allRecs (daily : List DayAgg) : List AgentKPI :=
  daily.flatMap (fun d => d.byAgent)

/-- The distinct agents of a record list, in order of first appearance in the
input sequence (spec side). -/
def firstSeen (recs : List AgentKPI) : List String :=
  recs.foldl (fun seen a => if a.agent ∈ seen then seen else seen ++ [a.agent]) []

/-- An agent's total sales over a record list (spec side). -/
def sumSales (recs : List AgentKPI) (t : String) : ℚ :=
  ((recs.filter (fun r => r.agent == t)).map (fun r => r.sales)).sum

lemma sumSales_nil (t : String) : sumSales [] t = 0 := rfl

lemma sumSales_cons_self (a : AgentKPI) (rest : List AgentKPI) (t : String)
    (h : a.agent = t) : sumSales (a :: rest) t = a.sales + sumSales rest t := by
  simp [sumSales, List.filter_cons, h]

lemma sumSales_cons_ne (a : AgentKPI) (rest : List AgentKPI) (t : String)
    (h : ¬ a.agent = t) : sumSales (a :: rest) t = sumSales rest t := by
  simp [sumSales, List.filter_cons, h]

lemma sumSales_eq_zero (recs : List AgentKPI) (t : String)
    (h : ∀ r ∈ recs, ¬ r.agent = t) : sumSales recs t = 0 := by
  induction recs with
  | nil => rfl
  | cons a rest ih =>
      rw [sumSales_cons_ne a rest t (h a (List.mem_cons_self a rest))]
      exact ih (fun r hr => h r (List.mem_cons_of_mem a hr))

lemma alookup_bump_self (k : String) (v : ℚ) :
    ∀ m, alookup k (bump m k v) = some ((alookup k m).getD 0 + v)
  | [] => by simp [bump, alookup]
  | (k0, v0) :: rest => by
      by_cases h : k0 = k
      · subst h
        simp [bump, alookup]
      · simp [bump, alookup, h, alookup_bump_self k v rest]

lemma alookup_bump_ne (t k : String) (v : ℚ) (hne : ¬ t = k) :
    ∀ m, alookup t (bump m k v) = alookup t m
  | [] => by
      have h2 : ¬ k = t := fun h => hne h.symm
      simp [bump, alookup, h2]
  | (k0, v0) :: rest => by
      by_cases h : k0 = k
      · have h4 : ¬ k = t := fun hc => hne hc.symm
        simp [bump, alookup, h, h4]
      · by_cases h2 : k0 = t
        · simp [bump, alookup, h, h2, hne]
        · simp [bump, alookup, h, h2, alookup_bump_ne t k v hne rest]

lemma alookup_bumpFold (g : String → Bool) (t : String) :
    ∀ (recs : List AgentKPI) (m : List (String × ℚ)),
      alookup t (bumpFold g m recs) =
        if g t = true ∧ (∃ r ∈ recs, r.agent = t) then
          some ((alookup t m).getD 0 + sumSales recs t)
        else alookup t m
  | [], m => by simp [bumpFold]
  | a :: rest, m => by
      have hstep : bumpFold g m (a :: rest) =
          bumpFold g (if g a.agent then bump m a.agent a.sales else m) rest := by
        simp [bumpFold]
      rw [hstep, alookup_bumpFold g t rest _]
      by_cases ha : a.agent = t
      · subst ha
        have hexT : ∃ r ∈ a :: rest, r.agent = a.agent :=
          ⟨a, List.mem_cons_self a rest, rfl⟩
        cases hg : g a.agent
        · simp [hg]
        · by_cases hrest : ∃ r ∈ rest, r.agent = a.agent
          · simp [hg, hrest, hexT, alookup_bump_self,
              sumSales_cons_self a rest a.agent rfl, add_assoc]
          · simp [hg, hrest, hexT, alookup_bump_self,
              sumSales_cons_self a rest a.agent rfl,
              sumSales_eq_zero rest a.agent (fun r hr hc => hrest ⟨r, hr, hc⟩)]
      · have hlook : alookup t (if g a.agent then bump m a.agent a.sales else m) =
            alookup t m := by
          cases hg : g a.agent
          · simp [hg]
          · simp only [hg, if_true]
            exact alookup_bump_ne t a.agent a.sales (fun hc => ha hc.symm) m
        have hex : (∃ r ∈ a :: rest, r.agent = t) ↔ (∃ r ∈ rest, r.agent = t) := by
          constructor
          · rintro ⟨r, hr, hrt⟩
            rcases List.mem_cons.1 hr with rfl | hr2
            · exact absurd hrt ha
            · exact ⟨r, hr2, hrt⟩
          · rintro ⟨r, hr, hrt⟩
            exact ⟨r, List.mem_cons_of_mem a hr, hrt⟩
        rw [hlook, sumSales_cons_ne a rest t ha]
        simp only [hex]

lemma akeys_bump (k : String) (v : ℚ) :
    ∀ m, akeys (bump m k v) = if k ∈ akeys m then akeys m else akeys m ++ [k]
  | [] => by simp [bump, akeys]
  | (k0, v0) :: rest => by
      by_cases h : k0 = k
      · subst h
        simp [bump, akeys]
      · have hkk0 : ¬ k = k0 := fun hc => h hc.symm
        have hrec := akeys_bump k v rest
        simp only [akeys] at hrec ⊢
        simp only [bump, if_neg h, List.map_cons, hrec]
        by_cases hm : k ∈ List.map Prod.fst rest
        · rw [if_pos hm, if_pos (List.mem_cons_of_mem k0 hm)]
        · rw [if_neg hm,
            if_neg (fun hc => (List.mem_cons.1 hc).elim (fun h2 => hkk0 h2) hm)]
          rfl

lemma nodup_akeys_bump (k : String) (v : ℚ) (m : List (String × ℚ))
    (h : (akeys m).Nodup) : (akeys (bump m k v)).Nodup := by
  rw [akeys_bump]
  by_cases hm : k ∈ akeys m
  · rwa [if_pos hm]
  · rw [if_neg hm]
    simp [List.nodup_append, h, hm]

lemma nodup_akeys_bumpFold (g : String → Bool) :
    ∀ (recs : List AgentKPI) (m : List (String × ℚ)),
      (akeys m).Nodup → (akeys (bumpFold g m recs)).Nodup
  | [], m, h => by simpa [bumpFold] using h
  | a :: rest, m, h => by
      have hstep : bumpFold g m (a :: rest) =
          bumpFold g (if g a.agent then bump m a.agent a.sales else m) rest := by
        simp [bumpFold]
      rw [hstep]
      apply nodup_akeys_bumpFold g rest
      cases hg : g a.agent
      · simpa [hg] using h
      · simp only [hg, if_true]
        exact nodup_akeys_bump a.agent a.sales m h

lemma akeys_bumpFold_true :
    ∀ (recs : List AgentKPI) (m : List (String × ℚ)),
      akeys (bumpFold (fun _ => true) m recs) =
        recs.foldl (fun seen a => if a.agent ∈ seen then seen else seen ++ [a.agent])
          (akeys m)
  | [], m => by simp [bumpFold]
  | a :: rest, m => by
      have hstep : bumpFold (fun _ => true) m (a :: rest) =
          bumpFold (fun _ => true) (bump m a.agent a.sales) rest := by
        simp [bumpFold]
      rw [hstep, akeys_bumpFold_true rest _, List.foldl_cons]
      congr 1
      exact akeys_bump a.agent a.sales m

lemma bumpFold_append (g : String → Bool) (m : List (String × ℚ))
    (xs ys : List AgentKPI) :
    bumpFold g m (xs ++ ys) = bumpFold g (bumpFold g m xs) ys := by
  simp [bumpFold, List.foldl_append]

lemma foldl_days_eq :
    ∀ (daily : List DayAgg) (m : List (String × ℚ)),
      daily.foldl (fun acc d => bumpFold (fun _ => true) acc d.byAgent) m =
        bumpFold (fun _ => true) m (allRecs daily)
  | [], m => by simp [allRecs, bumpFold]
  | d :: rest, m => by
      simp only [List.foldl_cons, allRecs, List.flatMap_cons, bumpFold_append]
      exact foldl_days_eq rest _

lemma mem_insFold :
    ∀ (recs : List AgentKPI) (seen : List String) (t : String),
      t ∈ recs.foldl
          (fun seen a => if a.agent ∈ seen then seen else seen ++ [a.agent]) seen ↔
        t ∈ seen ∨ ∃ r ∈ recs, r.agent = t
  | [], seen, t => by simp
  | a :: rest, seen, t => by
      rw [List.foldl_cons, mem_insFold rest _ t]
      by_cases hm : a.agent ∈ seen
      · rw [if_pos hm]
        constructor
        · rintro (h | ⟨r, hr, hrt⟩)
          · exact Or.inl h
          · exact Or.inr ⟨r, List.mem_cons_of_mem a hr, hrt⟩
        · rintro (h | ⟨r, hr, hrt⟩)
          · exact Or.inl h
          · rcases List.mem_cons.1 hr with rfl | hr2
            · exact Or.inl (hrt ▸ hm)
            · exact Or.inr ⟨r, hr2, hrt⟩
      · rw [if_neg hm]
        constructor
        · rintro (h | ⟨r, hr, hrt⟩)
          · rcases List.mem_append.1 h with h2 | h2
            · exact Or.inl h2
            · exact Or.inr ⟨a, List.mem_cons_self a rest, (List.mem_singleton.1 h2).symm⟩
          · exact Or.inr ⟨r, List.mem_cons_of_mem a hr, hrt⟩
        · rintro (h | ⟨r, hr, hrt⟩)
          · exact Or.inl (List.mem_append_left _ h)
          · rcases List.mem_cons.1 hr with rfl | hr2
            · exact Or.inl (List.mem_append_right _ (hrt ▸ List.mem_singleton_self r.agent))
            · exact Or.inr ⟨r, hr2, hrt⟩

lemma assoc_eq_map_keys :
    ∀ m : List (String × ℚ), (akeys m).Nodup →
      m = (akeys m).map (fun t => (t, (alookup t m).getD 0))
  | [], _ => rfl
  | (k, v) :: rest, h => by
      have hh : (k :: akeys rest).Nodup := by simpa [akeys] using h
      have hk : k ∉ akeys rest := (List.nodup_cons.1 hh).1
      have ht : (akeys rest).Nodup := (List.nodup_cons.1 hh).2
      show (k, v) :: rest = (k :: akeys rest).map
        (fun t => (t, (alookup t ((k, v) :: rest)).getD 0))
      rw [List.map_cons]
      congr 1
      · simp [alookup]
      · conv_lhs => rw [assoc_eq_map_keys rest ht]
        apply List.map_congr_left
        intro t htm
        have hne : ¬ k = t := fun hc => hk (hc ▸ htm)
        simp [alookup, hne]

lemma totalsAcc_flat (daily : List DayAgg) :
    totalsAcc daily = bumpFold (fun _ => true) [] (allRecs daily) :=
  foldl_days_eq daily []

lemma totalsAcc_keys (daily : List DayAgg) :
    akeys (totalsAcc daily) = firstSeen (allRecs daily) := by
  rw [totalsAcc_flat, akeys_bumpFold_true]
  rfl

lemma totalsAcc_nodup (daily : List DayAgg) : (akeys (totalsAcc daily)).Nodup := by
  rw [totalsAcc_flat]
  exact nodup_akeys_bumpFold _ _ [] (by simp [akeys])

lemma alookup_totalsAcc (daily : List DayAgg) (t : String) :
    alookup t (totalsAcc daily) =
      if ∃ r ∈ allRecs daily, r.agent = t then
        some (sumSales (allRecs daily) t)
      else none := by
  rw [totalsAcc_flat, alookup_bumpFold]
  simp [alookup]

lemma totalsAcc_eq (daily : List DayAgg) :
    totalsAcc daily =
      (firstSeen (allRecs daily)).map
        (fun t => (t, sumSales (allRecs daily) t)) := by
  have h := assoc_eq_map_keys (totalsAcc daily) (totalsAcc_nodup daily)
  rw [totalsAcc_keys] at h
  rw [h]
  apply List.map_congr_left
  intro t ht
  have hex : ∃ r ∈ allRecs daily, r.agent = t := by
    have h2 := (mem_insFold (allRecs daily) [] t).1 ht
    exact h2.resolve_left (List.not_mem_nil t)
  rw [alookup_totalsAcc, if_pos hex]
  rfl

lemma pairTotal (a b : String × ℚ) : b.2 - a.2 ≤ 0 ∨ a.2 - b.2 ≤ 0 := by
  rcases le_total b.2 a.2 with h | h
  · exact Or.inl (sub_nonpos.2 h)
  · exact Or.inr (sub_nonpos.2 h)

lemma pairTrans (a b c : String × ℚ) (hab : b.2 - a.2 ≤ 0) (hbc : c.2 - b.2 ≤ 0) :
    c.2 - a.2 ≤ 0 :=
  sub_nonpos.2 (le_trans (sub_nonpos.1 hbc) (sub_nonpos.1 hab))

/-- C3: the Top-N Grouper tracked set.  Its size is `min(N, distinct agent
count)`; it is the first `N` names of the totals entries sorted by total sales
descending; that sorted entry list is a permutation of the distinct agents in
first-appearance order, is pairwise descending by total, carries each agent's
true summed sales, and breaks ties by first appearance in the input sequence
(the entries tied at any total `v` keep their insertion order — never locale or
alphabetical order); an empty series yields an empty tracked set. -/
theorem topAgents_spec (daily : List DayAgg) (n : ℕ) (v : ℚ) :
    (topAgents daily n).length = min n (firstSeen (allRecs daily)).length ∧
    topAgents daily n =
      ((jsSort (fun a b => b.2 - a.2) (totalsAcc daily)).map Prod.fst).take n ∧
    ((jsSort (fun a b => b.2 - a.2) (totalsAcc daily)).map Prod.fst).Perm
      (firstSeen (allRecs daily)) ∧
    (jsSort (fun a b => b.2 - a.2) (totalsAcc daily)).Pairwise
      (fun e f => f.2 ≤ e.2) ∧
    (∀ e ∈ jsSort (fun a b => b.2 - a.2) (totalsAcc daily),
        e.2 = sumSales (allRecs daily) e.1) ∧
    ((jsSort (fun a b => b.2 - a.2) (totalsAcc daily)).filter
        (fun e => decide (e.2 = v))).map Prod.fst =
      (firstSeen (allRecs daily)).filter
        (fun t => decide (sumSales (allRecs daily) t = v)) ∧
    (daily = [] → topAgents daily n = []) := by
  have hkeys : (totalsAcc daily).map Prod.fst = firstSeen (allRecs daily) :=
    totalsAcc_keys daily
  have hperm : (jsSort (fun a b => b.2 - a.2) (totalsAcc daily)).Perm
      (totalsAcc daily) := List.perm_insertionSort _ _
  refine ⟨?_, ?_, ?_, ?_, ?_, ?_, ?_⟩
  · simp only [topAgents]
    rw [List.length_map, List.length_take, hperm.length_eq, ← hkeys,
      List.length_map]
  · simp only [topAgents]
    rw [List.map_take]
  · rw [← hkeys]
    exact hperm.map Prod.fst
  · haveI : IsTotal (String × ℚ) (fun a b => b.2 - a.2 ≤ 0) := ⟨pairTotal⟩
    haveI : IsTrans (String × ℚ) (fun a b => b.2 - a.2 ≤ 0) := ⟨pairTrans⟩
    have hs := List.sorted_insertionSort (fun a b : String × ℚ => b.2 - a.2 ≤ 0)
      (totalsAcc daily)
    exact List.Pairwise.imp (fun h => sub_nonpos.1 h) hs
  · intro e he
    have he2 : e ∈ totalsAcc daily := hperm.mem_iff.1 he
    rw [totalsAcc_eq daily] at he2
    rcases List.mem_map.1 he2 with ⟨t, _, rfl⟩
    rfl
  · have hstab := filter_insertionSort_of_tied
      (fun a b : String × ℚ => b.2 - a.2 ≤ 0)
      (fun e => decide (e.2 = v))
      (fun x y hx hy => by
        have hx2 : x.2 = v := of_decide_eq_true hx
        have hy2 : y.2 = v := of_decide_eq_true hy
        show y.2 - x.2 ≤ 0
        rw [hy2, hx2, sub_self])
      (totalsAcc daily)
    have hstab2 : (jsSort (fun a b => b.2 - a.2) (totalsAcc daily)).filter
        (fun e => decide (e.2 = v)) =
        (totalsAcc daily).filter (fun e => decide (e.2 = v)) := hstab
    rw [hstab2, totalsAcc_eq daily, List.filter_map, List.map_map]
    have h1 : List.filter ((fun e : String × ℚ => decide (e.2 = v)) ∘
          fun t => (t, sumSales (allRecs daily) t)) (firstSeen (allRecs daily)) =
        List.filter (fun t => decide (sumSales (allRecs daily) t = v))
          (firstSeen (allRecs daily)) := by
      apply List.filter_congr
      intro t _
      rfl
    rw [h1]
    have h2 : ∀ t ∈ List.filter (fun t => decide (sumSales (allRecs daily) t = v))
        (firstSeen (allRecs daily)),
        (Prod.fst ∘ fun t => (t, sumSales (allRecs daily) t)) t = id t :=
      fun t _ => rfl
    rw [List.map_congr_left h2, List.map_id]
  · intro h
    subst h
    simp [topAgents, totalsAcc, jsSort]

/-- The two-day example series used as concrete input for the grouper claims
(the example of spec section 8: totals are A = 3, B = 1 + 5 = 6, so B ranks
first). -/
def exDaily : List DayAgg :=
  [⟨"d1", [{ agent := "A", sales := 3 }, { agent := "B", sales := 1 }]⟩,
   ⟨"d2", [{ agent := "B", sales := 5 }]⟩]

/-- Witness for C3 at the concrete two-day series (`N = 1` tracks exactly B)
and at the empty series. -/
theorem topAgents_spec_witness :
    topAgents exDaily 1 = ["B"] ∧
    (topAgents exDaily 1).length = min 1 (firstSeen (allRecs exDaily)).length ∧
    (6 : ℚ) = sumSales (allRecs exDaily) "B" ∧
    topAgents ([] : List DayAgg) 6 = [] := by
  have h := topAgents_spec exDaily 1 0
  have h0 := topAgents_spec ([] : List DayAgg) 6 0
  refine ⟨?_, h.1, ?_, h0.2.2.2.2.2.2 rfl⟩
  · norm_num [topAgents, totalsAcc, bumpFold, bump, exDaily, jsSort]
  · exact h.2.2.2.2.1 ("B", 6)
      (by norm_num [totalsAcc, bumpFold, bump, exDaily, jsSort])

lemma mem_zip_map {β : Type} (f : DayAgg → β) (daily : List DayAgg)
    (p : β × DayAgg) (hp : p ∈ (daily.map f).zip daily) :
    p.1 = f p.2 ∧ p.2 ∈ daily := by
  have h : (daily.map f).zip daily = daily.map (fun d => (f d, id d)) := by
    calc (daily.map f).zip daily
        = (daily.map f).zip (daily.map id) := by rw [List.map_id]
      _ = daily.map (fun d => (f d, id d)) := List.zip_map' f id daily
  rw [h] at hp
  rcases List.mem_map.1 hp with ⟨d, hd, rfl⟩
  exact ⟨rfl, hd⟩

lemma alookup_map_pair (g : String → ℚ) (t : String) :
    ∀ l : List String, t ∈ l →
      alookup t (l.map (fun name => (name, g name))) = some (g t)
  | [], h => absurd h (List.not_mem_nil t)
  | x :: xs, h => by
      by_cases hx : x = t
      · subst hx
        simp [alookup]
      · have hmem : t ∈ xs := (List.mem_cons.1 h).resolve_left (fun hc => hx hc.symm)
        simp [alookup, hx, alookup_map_pair g t xs hmem]

/-- C1 (amended): both grouper variants emit exactly one row per input day,
keyed by that day's date.  In part_000's `stacked`, every tracked agent's key
is present on every row, with the value of the agent's (first) record that day
or `0` when there is none.  In page.tsx's `buildStacked`, a tracked agent's
key is present on a day's row exactly when that agent has a record that day —
the key is omitted, not `0`, otherwise — and carries the agent's summed sales
of that day. -/
theorem stacked_rows_spec (daily : List DayAgg) (n : ℕ) (t : String) :
    ((stacked000 daily).1.map SRow.date = daily.map DayAgg.date) ∧
    ((buildStacked daily n).1.map SRow.date = daily.map DayAgg.date) ∧
    (∀ p ∈ (stacked000 daily).1.zip daily, t ∈ (stacked000 daily).2 →
        alookup t p.1.fields = some (foundOr0 p.2 t)) ∧
    (∀ p ∈ (buildStacked daily n).1.zip daily,
        alookup t p.1.fields =
          if t ∈ (buildStacked daily n).2 ∧ (∃ r ∈ p.2.byAgent, r.agent = t) then
            some (sumSales p.2.byAgent t)
          else none) := by
  refine ⟨?_, ?_, ?_, ?_⟩
  · simp [stacked000, List.map_map, Function.comp]
  · by_cases h : daily.length = 0
    · have hnil : daily = [] := List.length_eq_zero.1 h
      subst hnil
      simp [buildStacked]
    · simp [buildStacked, h, List.map_map, Function.comp]
  · intro p hp ht
    have hz := mem_zip_map
      (fun d => (⟨d.date,
        (topAgents daily 6).map (fun name => (name, foundOr0 d name))⟩ : SRow))
      daily p hp
    rw [hz.1]
    exact alookup_map_pair (foundOr0 p.2) t (topAgents daily 6) ht
  · intro p hp
    by_cases h : daily.length = 0
    · have hnil : daily = [] := List.length_eq_zero.1 h
      subst hnil
      simp [buildStacked] at hp
    · have hb : buildStacked daily n =
          (daily.map (fun d => (⟨d.date,
              bumpFold (fun ag => decide (ag ∈ topAgents daily n)) []
                d.byAgent⟩ : SRow)),
            topAgents daily n) := by
        simp [buildStacked, h]
      rw [hb] at hp ⊢
      have hz := mem_zip_map _ daily p hp
      rw [hz.1]
      show alookup t
          (bumpFold (fun ag => decide (ag ∈ topAgents daily n)) [] p.2.byAgent) = _
      rw [alookup_bumpFold]
      simp [alookup, decide_eq_true_eq]

/-- C1 counterexample: over the two-day example series with `N = 2`, agent
`"A"` is tracked, yet `buildStacked`'s second row (date `"d2"`, where A has no
record) has **no** `"A"` key at all — where the claim requires the key to be
present with value `0`, as part_000's `stacked` indeed emits. -/
theorem buildStacked_omits_key :
    "A" ∈ (buildStacked exDaily 2).2 ∧
    ((buildStacked exDaily 2).1.getD 1 ⟨"", []⟩).date = "d2" ∧
    alookup "A" ((buildStacked exDaily 2).1.getD 1 ⟨"", []⟩).fields = none ∧
    alookup "A" ((stacked000 exDaily).1.getD 1 ⟨"", []⟩).fields = some 0 := by
  refine ⟨?_, ?_, ?_, ?_⟩ <;>
    (norm_num [buildStacked, stacked000, topAgents, totalsAcc, bumpFold, bump,
      exDaily, jsSort, alookup, foundOr0, List.find?]) <;> decide

/-- Witness for C1 (amended), at the two-day example series: the part_000 row
for `"d2"` carries `"A"` with value `0`, while the `buildStacked` row for
`"d2"` omits the key. -/
theorem stacked_rows_spec_witness :
    alookup "A" (⟨"d2", [("B", (5 : ℚ)), ("A", 0)]⟩ : SRow).fields = some 0 ∧
    alookup "A" (⟨"d2", [("B", (5 : ℚ))]⟩ : SRow).fields = none := by
  have h := stacked_rows_spec exDaily 2 "A"
  constructor
  · have h3 := h.2.2.1
      ((⟨"d2", [("B", 5), ("A", 0)]⟩ : SRow),
        (⟨"d2", [{ agent := "B", sales := 5 }]⟩ : DayAgg))
      (by (norm_num [stacked000, topAgents, totalsAcc, bumpFold, bump, exDaily,
        jsSort, foundOr0, List.find?]) <;> decide)
      (by (norm_num [stacked000, topAgents, totalsAcc, bumpFold, bump, exDaily,
        jsSort]) <;> decide)
    rw [h3]
    (norm_num [foundOr0, List.find?]) <;> decide
  · have h4 := h.2.2.2
      ((⟨"d2", [("B", 5)]⟩ : SRow),
        (⟨"d2", [{ agent := "B", sales := 5 }]⟩ : DayAgg))
      (by (norm_num [buildStacked, topAgents, totalsAcc, bumpFold, bump, exDaily,
        jsSort]) <;> decide)
    rw [h4]
    (norm_num [buildStacked, topAgents, totalsAcc, bumpFold, bump, exDaily,
      jsSort, sumSales]) <;> decide

/-! ## KPI Calculator (src/unnamed/part_001 `kpiChartData` lines 224–237,
`salesChartData` lines 208–221, `headerStats` lines 173–188, the "% of KPI"
pill lines 411–420; src/unnamed/part_000 KPI chart lines 440–448) -/

/-- Model of the JS expression `(r.agent || "").split(/\s+/)[0] || r.agent || ""`:
the first maximal run of non-whitespace characters; a string that is empty or
begins with whitespace falls back to the whole agent string (the regex split
yields a leading empty string, which is falsy, in that case). -/
def firstName (agent : String) : String :=
  let leadingWs :=
    match agent.data with
    | [] => false
    | c :: _ => c.isWhitespace
  let tok :=
    if leadingWs then ""
    else ((agent.split (fun c => c.isWhitespace)).filter
      (fun t => decide (¬ t = ""))).headD ""
  if tok = "" then agent else tok

/-- Effective target of part_001: `r.target ?? (r.status === "FT" ? 6.5 : 4)`. -/
def effTarget (r : DayRow) : ℚ :=
  r.target.getD (if r.status = some "FT" then 13 / 2 else 4)

/-- The raw percent of `kpiChartData`:
`typeof r.percent === "number" ? r.percent : target ? ((Number(r.sales || 0) / Number(target)) * 100) : 0`. -/
def kpiRaw (r : DayRow) : ℚ :=
  match r.percent with
  | some p => p
  | none => if effTarget r ≠ 0 then (r.sales / effTarget r) * 100 else 0

/-- The stored percent:
`Number.isFinite(raw) ? Math.max(0, Math.min(200, raw)) : 0` (every `ℚ` is
finite, so this is the clamp of the raw value to `[0, 200]`). -/
def kpiPercent (r : DayRow) : ℚ :=
  max 0 (min 200 (kpiRaw r))

/-- One output point of `kpiChartData`: `{ first, percent }`. -/
structure KpiPoint where
  first : String
  percent : ℚ
deriving DecidableEq

/-- `kpiChartData` (src/unnamed/part_001 lines 224–237). -/
def kpiChartData (rows : List DayRow) : List KpiPoint :=
  rows.map (fun r => ⟨firstName r.agent, kpiPercent r⟩)

/-- One output point of `salesChartData`. -/
structure SalesPoint where
  agent : String
  first : String
  sales : ℚ
  percent : ℚ
deriving DecidableEq

/-- `salesChartData` (src/unnamed/part_001 lines 208–221):
`target = r.target ?? (r.status === "FT" ? 6.5 : 4);
percent = target ? ((r.sales ?? 0) / target) * 100 : 0` (the trailing
`Number.isFinite` guard is the identity on `ℚ`). -/
def salesChartData (rows : List DayRow) : List SalesPoint :=
  rows.map (fun r =>
    ⟨r.agent, firstName r.agent, r.sales,
      if effTarget r ≠ 0 then (r.sales / effTarget r) * 100 else 0⟩)

/-- The default-goal table in the words of the spec (§3): FT→6.5, PT→4.0 —
and no entry for any other (or absent) status.  This is the spec side of the
refinement claim C2, to be compared with the code's `effTarget`. -/
def defaultGoalFor : Option String → Option ℚ
  | some "FT" => some (13 / 2)
  | some "PT" => some 4
  | _ => none

/-- Spec-side `agentPercent`, following §4.2's words: a precomputed finite
`percent` is used verbatim; else `sales / effectiveGoal * 100` with
`effectiveGoal = goal ?? defaultGoalFor(status)`; if no goal is derivable the
result is the distinguished unknown marker (`none`). -/
def agentPercentSpec (r : DayRow) : Option ℚ :=
  match r.percent with
  | some p => some p
  | none =>
      match r.target.orElse (fun _ => defaultGoalFor r.status) with
      | some g => some ((r.sales / g) * 100)
      | none => none

/-- One row of part_000's KPI achievement chart. -/
structure Kpi000Row where
  agent : String
  percent : ℚ
  sales : ℚ
  goal : Option ℚ
  status : Option String
deriving DecidableEq

/-- One decimal place: `Math.round(x * 10) / 10` (JS `Math.round` rounds
half-up toward `+∞`, exactly as `round` on `ℚ`). -/
def round1 (q : ℚ) : ℚ :=
  (round (q * 10) : ℤ) / 10

/-- The KPI chart data of src/unnamed/part_000's `DashboardPage`
(lines 440–448): map to
`{agent, percent: Math.round((r.percent ?? 0) * 10) / 10, sales, goal, status}`
then sort by `percent` descending (`(a, b) => b.percent - a.percent`). -/
def kpiChart000 (rows : List AgentKPI) : List Kpi000Row :=
  jsSort (fun a b => b.percent - a.percent)
    (rows.map (fun r => ⟨r.agent, round1 (r.percent.getD 0), r.sales, r.goal, r.status⟩))

/-- The DAY branch of `headerStats` (src/unnamed/part_001 lines 173–188):
`totalSales = dayData?.totalKPI ?? 0; agentsDay = dayData?.perAgentKPI?.length ?? 0;
avg = agentsDay ? totalSales / agentsDay : 0` (the `toFixed(2)` is display
formatting of this exact value). -/
def headerAvgDay (totalKPI : Option ℚ) (perAgentKPI : Option (List DayRow)) : ℚ :=
  let totalSales := totalKPI.getD 0
  let agentsDay := (perAgentKPI.getD []).length
  if agentsDay = 0 then 0 else totalSales / (agentsDay : ℚ)

/-- The "% of KPI" pill (src/unnamed/part_001 lines 411–420):
`goal = dayData?.dayGoal ?? 0; total = dayData?.totalKPI ?? 0;
p = dayData?.dayPercent ?? (goal ? (total / goal) * 100 : 0)` (the final
`Number.isFinite(p) ? p : 0` display guard is the identity on `ℚ`). -/
def dayPercentPill (dayPercent dayGoal totalKPI : Option ℚ) : ℚ :=
  let goal := dayGoal.getD 0
  let total := totalKPI.getD 0
  match dayPercent with
  | some p => p
  | none => if goal ≠ 0 then (total / goal) * 100 else 0

/-- C10: with no explicit target, the effective goal of the KPI Calculator is
`6.5` exactly when the status is `"FT"` and `4.0` in every other case —
including an absent status — so a default goal is always derivable, and the
computed raw percent of a goalless non-FT record (no precomputed percent) is
`sales / 4 * 100` in both `kpiChartData` (pre-clamp) and `salesChartData`,
never an unknown marker. -/
theorem effective_goal_defaults (r : DayRow) (h : r.target = none) :
    effTarget r = (if r.status = some "FT" then (13 : ℚ) / 2 else 4) ∧
    (r.status = some "FT" → effTarget r = 13 / 2) ∧
    (r.status ≠ some "FT" → effTarget r = 4) ∧
    (r.percent = none → r.status ≠ some "FT" →
      kpiRaw r = (r.sales / 4) * 100 ∧
      (salesChartData [r]).map SalesPoint.percent = [(r.sales / 4) * 100]) := by
  have ht : effTarget r = if r.status = some "FT" then (13 : ℚ) / 2 else 4 := by
    simp [effTarget, h]
  refine ⟨ht, ?_, ?_, ?_⟩
  · intro hs
    rw [ht, if_pos hs]
  · intro hs
    rw [ht, if_neg hs]
  · intro hp hs
    have ht4 : effTarget r = 4 := by rw [ht, if_neg hs]
    constructor
    · simp [kpiRaw, hp, ht4]
    · simp [salesChartData, ht4]

/-- Witness for C10: the record `{agent := "Ann Lee", sales := 5}` (no target,
no status, no percent) gets effective goal `4` and computed percent `125`. -/
theorem effective_goal_defaults_witness :
    effTarget { agent := "Ann Lee", sales := 5 } = 4 ∧
    kpiRaw { agent := "Ann Lee", sales := 5 } = 125 ∧
    (salesChartData [{ agent := "Ann Lee", sales := 5 }]).map SalesPoint.percent
      = [125] := by
  have h := effective_goal_defaults { agent := "Ann Lee", sales := 5 } rfl
  have h4 := h.2.2.2 rfl (by decide)
  refine ⟨h.2.2.1 (by decide), ?_, ?_⟩
  · rw [h4.1]
    norm_num
  · rw [h4.2]
    norm_num

/-- The no-goal record of the C2 counterexample: absent percent, absent
target, absent status. -/
def rNoGoal : DayRow := { agent := "Ann", sales := 5 }

/-- A record with an explicit target of `0` and absent percent. -/
def rZeroTarget : DayRow := { agent := "Bob", sales := 5, target := some 0 }

/-- A record that genuinely achieved 0% of a positive goal. -/
def rZeroSales : DayRow := { agent := "Cat", sales := 0, target := some 5 }

/-- C2 counterexample: for `rNoGoal` the spec's default-goal table (FT/PT
only) derives **no** goal, so the claim demands the distinguished unknown
marker — but `kpiChartData` outputs the plain number `125` (the code falls
back to goal `4` for any non-FT status).  Moreover a zero explicit target and
a genuine 0%-achieved record both output `0`: "no positive goal" is not
distinguishable from "0% achieved" in the output. -/
theorem kpiChartData_no_unknown_marker :
    rNoGoal.percent = none ∧
    agentPercentSpec rNoGoal = none ∧
    (kpiChartData [rNoGoal]).map KpiPoint.percent = [125] ∧
    (kpiChartData [rZeroTarget]).map KpiPoint.percent = [0] ∧
    (kpiChartData [rZeroSales]).map KpiPoint.percent = [0] := by
  have e1 : effTarget rNoGoal = 4 := by
    have hns : ¬ rNoGoal.status = some "FT" := by decide
    have htg : rNoGoal.target = none := rfl
    simp [effTarget, hns, htg]
  have e2 : effTarget rZeroTarget = 0 := by
    have htg : rZeroTarget.target = some 0 := rfl
    simp [effTarget, htg]
  have e3 : effTarget rZeroSales = 5 := by
    have htg : rZeroSales.target = some 5 := rfl
    simp [effTarget, htg]
  have k1 : kpiRaw rNoGoal = 125 := by
    have hp : rNoGoal.percent = none := rfl
    have hs : rNoGoal.sales = 5 := rfl
    simp [kpiRaw, hp, hs, e1]
    norm_num
  have k2 : kpiRaw rZeroTarget = 0 := by
    have hp : rZeroTarget.percent = none := rfl
    simp [kpiRaw, hp, e2]
  have k3 : kpiRaw rZeroSales = 0 := by
    have hp : rZeroSales.percent = none := rfl
    have hs : rZeroSales.sales = 0 := rfl
    simp [kpiRaw, hp, hs, e3]
  have p1 : kpiPercent rNoGoal = 125 := by
    rw [kpiPercent, k1, min_eq_right (by norm_num), max_eq_right (by norm_num)]
  have p2 : kpiPercent rZeroTarget = 0 := by
    rw [kpiPercent, k2, min_eq_right (by norm_num), max_eq_right le_rfl]
  have p3 : kpiPercent rZeroSales = 0 := by
    rw [kpiPercent, k3, min_eq_right (by norm_num), max_eq_right le_rfl]
  exact ⟨rfl, rfl, by simp [kpiChartData, p1], by simp [kpiChartData, p2],
    by simp [kpiChartData, p3]⟩

/-- C2 (amended): `kpiChartData` never produces an unknown marker — a goal is
always derivable in the code.  The output has exactly one numeric entry per
input record; a record with absent `percent` and absent `target` gets the
clamp of `sales / default * 100` (default `6.5` for FT, `4` otherwise); a
record with absent `percent` and an explicit target of `0` gets `0`. -/
theorem kpiChartData_total_numeric (r : DayRow) (rows : List DayRow) :
    (kpiChartData rows).length = rows.length ∧
    (r.percent = none → r.target = none →
      (kpiChartData [r]).map KpiPoint.percent =
        [max 0 (min 200
          ((r.sales / (if r.status = some "FT" then (13 : ℚ) / 2 else 4)) * 100))]) ∧
    (r.percent = none → r.target = some 0 →
      (kpiChartData [r]).map KpiPoint.percent = [0]) := by
  refine ⟨by simp [kpiChartData], ?_, ?_⟩
  · intro hp ht
    have htgt : effTarget r = if r.status = some "FT" then (13 : ℚ) / 2 else 4 := by
      simp [effTarget, ht]
    by_cases hs : r.status = some "FT"
    · simp [kpiChartData, kpiPercent, kpiRaw, hp, htgt, hs]
    · simp [kpiChartData, kpiPercent, kpiRaw, hp, htgt, hs]
  · intro hp ht
    simp [kpiChartData, kpiPercent, kpiRaw, hp, effTarget, ht]

/-- Witness for C2 (amended), at the concrete records `rNoGoal` and
`rZeroTarget`. -/
theorem kpiChartData_total_numeric_witness :
    (kpiChartData [rNoGoal]).map KpiPoint.percent = [125] ∧
    (kpiChartData [rZeroTarget]).map KpiPoint.percent = [0] ∧
    (kpiChartData [rNoGoal, rZeroTarget]).length = 2 := by
  have h1 := kpiChartData_total_numeric rNoGoal [rNoGoal, rZeroTarget]
  have h2 := kpiChartData_total_numeric rZeroTarget [rNoGoal, rZeroTarget]
  refine ⟨?_, h2.2.2 rfl rfl, h1.1⟩
  have h3 := h1.2.1 rfl rfl
  rw [h3]
  have hns : ¬ rNoGoal.status = some "FT" := by decide
  have h4 : (rNoGoal.sales /
      (if rNoGoal.status = some "FT" then (13 : ℚ) / 2 else 4)) * 100 = 125 := by
    rw [if_neg hns]
    have hs : rNoGoal.sales = 5 := rfl
    rw [hs]
    norm_num
  rw [h4, min_eq_right (by norm_num), max_eq_right (by norm_num)]

/-- The 340%-record of the C9 counterexample (precomputed percent 340). -/
def r340 : AgentKPI := { agent := "Max", sales := 3, percent := some 340 }

/-- C9 counterexample: in part_000's KPI chart a record whose percent is 340
renders as `340` — the value is rounded to one decimal but **not** clamped to
`[0, 200]`, contrary to the claim that every displayed percent is clamped. -/
theorem kpiChart000_no_clamp :
    (kpiChart000 [r340]).map Kpi000Row.percent = [340] ∧ ¬ (340 : ℚ) ≤ 200 := by
  constructor
  · norm_num [kpiChart000, jsSort, round1, r340]
  · norm_num

/-- C9 (amended): clamping and rounding are split across the two variants.
part_001's `kpiChartData` clamps every record's percent to `[0, 200]` — a raw
value below `0` becomes `0`, above `200` becomes `200`, in range stays
verbatim — and drops no record (its one-decimal rounding happens at tooltip
display).  part_000's KPI chart rounds every record's `percent ?? 0` to one
decimal and drops no record, but does not clamp. -/
theorem kpi_display_clamp_round (rows : List AgentKPI) (rows2 : List DayRow)
    (r : DayRow) :
    (kpiChartData rows2).length = rows2.length ∧
    (0 ≤ kpiPercent r ∧ kpiPercent r ≤ 200) ∧
    (kpiRaw r < 0 → kpiPercent r = 0) ∧
    (200 < kpiRaw r → kpiPercent r = 200) ∧
    (0 ≤ kpiRaw r → kpiRaw r ≤ 200 → kpiPercent r = kpiRaw r) ∧
    (kpiChart000 rows).length = rows.length ∧
    ((kpiChart000 rows).map Kpi000Row.percent).Perm
      (rows.map (fun x => round1 (x.percent.getD 0))) := by
  refine ⟨by simp [kpiChartData], ⟨le_max_left 0 _, ?_⟩, ?_, ?_, ?_, ?_, ?_⟩
  · exact max_le (by norm_num) (min_le_left _ _)
  · intro hneg
    rw [kpiPercent, min_eq_right (le_trans hneg.le (by norm_num)),
      max_eq_left hneg.le]
  · intro hbig
    rw [kpiPercent, min_eq_left hbig.le]
    norm_num
  · intro h0 h200
    rw [kpiPercent, min_eq_right h200, max_eq_right h0]
  · simp [kpiChart000, jsSort]
  · have heq : ((rows.map (fun r => (⟨r.agent, round1 (r.percent.getD 0), r.sales,
        r.goal, r.status⟩ : Kpi000Row))).map Kpi000Row.percent) =
        rows.map (fun x => round1 (x.percent.getD 0)) := by
      rw [List.map_map]
      exact List.map_congr_left (fun x _ => rfl)
    rw [← heq]
    exact (List.perm_insertionSort _ _).map _

/-- Witness for C9 (amended): a 340%-record clamps to 200, a negative record
clamps to 0, an in-range record is untouched, and part_000's chart keeps the
340 un-clamped. -/
theorem kpi_display_clamp_round_witness :
    kpiPercent { agent := "Max", sales := 3, percent := some 340 } = 200 ∧
    kpiPercent { agent := "Neg", sales := 3, percent := some (-7) } = 0 ∧
    kpiPercent { agent := "Mid", sales := 3, percent := some 76 } = 76 ∧
    (kpiChart000 [r340]).length = 1 := by
  have hmax := kpi_display_clamp_round [r340] []
    { agent := "Max", sales := 3, percent := some 340 }
  have hneg := kpi_display_clamp_round [r340] []
    { agent := "Neg", sales := 3, percent := some (-7) }
  have hmid := kpi_display_clamp_round [r340] []
    { agent := "Mid", sales := 3, percent := some 76 }
  exact ⟨hmax.2.2.2.1 (by norm_num [kpiRaw]),
    hneg.2.2.1 (by norm_num [kpiRaw]),
    hmid.2.2.2.2.1 (by norm_num [kpiRaw]) (by norm_num [kpiRaw]),
    hmax.2.2.2.2.2.1⟩

/-- C4 counterexample: with an upstream `dayGoal` of `-5` (not positive) and
`totalKPI` of `10`, the "% of KPI" computation yields `-200`, not the `0` the
claim requires for a non-positive goal — the code's guard is JS truthiness
(`goal ≠ 0`), not `goal > 0`. -/
theorem dayPercentPill_negative_goal :
    dayPercentPill none (some (-5)) (some 10) = -200 ∧
    ¬ (0 : ℚ) < -5 ∧ (-200 : ℚ) ≠ 0 := by
  refine ⟨?_, by norm_num, by norm_num⟩
  norm_num [dayPercentPill]

/-- C4 (amended): `avgPerAgent` is guarded — `0` when the day has zero agents
and exactly `totalSales / totalAgents` otherwise.  The day percent is `0` when
the goal is `0` or absent (absent defaults to `0`), and `totalSales / goal * 100`
for every nonzero goal — including negative goals, which yield negative
percents rather than `0`.  All results are rational (finite) values; the
division-by-zero branch is unreachable past the guards. -/
theorem headerStats_guards (tk : Option ℚ) (rows : Option (List DayRow))
    (g t : ℚ) :
    ((rows.getD []).length = 0 → headerAvgDay tk rows = 0) ∧
    ((rows.getD []).length ≠ 0 →
      headerAvgDay tk rows = tk.getD 0 / ((rows.getD []).length : ℚ)) ∧
    dayPercentPill none (some 0) (some t) = 0 ∧
    dayPercentPill none none (some t) = 0 ∧
    (g ≠ 0 → dayPercentPill none (some g) (some t) = (t / g) * 100) := by
  refine ⟨?_, ?_, by simp [dayPercentPill], by simp [dayPercentPill], ?_⟩
  · intro h
    simp [headerAvgDay, h]
  · intro h
    simp [headerAvgDay, h]
  · intro h
    simp [dayPercentPill, h]

/-- Witness for C4 (amended): 2 agents with total 7 average exactly 7/2; no
agents average 0; goal 5 with total 10 gives 200%. -/
theorem headerStats_guards_witness :
    headerAvgDay (some 7)
      (some [{ agent := "A", sales := 5 }, { agent := "B", sales := 2 }]) = 7 / 2 ∧
    headerAvgDay (some 7) none = 0 ∧
    dayPercentPill none (some 5) (some 10) = 200 := by
  have h1 := headerStats_guards (some 7)
    (some [{ agent := "A", sales := 5 }, { agent := "B", sales := 2 }]) 5 10
  have h2 := headerStats_guards (some 7) none 5 10
  refine ⟨?_, h2.1 rfl, ?_⟩
  · rw [h1.2.1 (by decide)]
    norm_num
  · rw [h1.2.2.2.2 (by norm_num)]
    norm_num

end SalesDash
